import Mathlib

/-!
Verification of the scope/reference model and the rule logic of the
repository's lint rules (`no-use-before-define`, `no-labels`, `quotes`)
against their natural-language specification.

The JavaScript sources are shallowly embedded: AST nodes are modelled by
records carrying the fields the rules read (type tags, source ranges,
identity booleans for `===` comparisons against the current node), and
`eslint-scope` scopes are modelled by their upper-chain of scope frames
(the scope itself first, the root scope last).
-/

/-- AST node type tags read by the rules. -/
inductive NType where
  | program
  | expressionStatement
  | blockStatement
  | variableDeclaration
  | variableDeclarator
  | assignmentPattern
  | functionDeclaration
  | functionExpression
  | arrowFunctionExpression
  | classDeclaration
  | classExpression
  | catchClause
  | importDeclaration
  | exportNamedDeclaration
  | forInStatement
  | forOfStatement
  | exportSpecifier
  | importSpecifier
  | exportAllDeclaration
  | tsQualifiedName
  | tsTypeReference
  | tsTypeQuery
  | identifier
  | property
  | propertyDefinition
  | methodDefinition
  | staticBlock
  | callExpression
  | assignmentExpression
  | jsxAttribute
  | jsxElement
  | jsxFragment
  | taggedTemplateExpression
  | other
deriving DecidableEq, Repr

namespace NoUseBeforeDefine

/-- Scope type tags of `eslint-scope`.  The `class-field-initializer`
tag carries the `static` flag of the `PropertyDefinition` owning the
initializer (in the source this is read from `scope.block.parent.static`). -/
inductive ScopeType where
  | globalScope
  | moduleScope
  | functionScope
  | classStaticBlock
  | classFieldInitializer (isStatic : Bool)
  | classScope
  | blockScope
  | catchScope
  | forScope
  | switchScope
  | withScope
  | functionExpressionName
deriving DecidableEq, Repr

/-- One scope, identified by a unique id (standing for JS object identity)
and its type tag. -/
structure ScopeFrame where
  sid : Nat
  stype : ScopeType
deriving DecidableEq, Repr

/-- A scope is represented by its chain of frames: the scope itself first,
then its `upper` scope, and so on up to the root scope. -/
abbrev ScopeChain := List ScopeFrame

/-- Modelled from the spec: which scopes are variable scopes (execution
contexts) — program/module, functions, class static blocks and class field
initializers (spec sections 3 and 4.2; the Scope Builder itself is outside
the excerpted sources). -/
def isVariableScopeType : ScopeType → Bool
  | .globalScope | .moduleScope | .functionScope
  | .classStaticBlock | .classFieldInitializer _ => true
  | _ => false

/-- Modelled from the spec: `Scope#variableScope` is the nearest enclosing
variable scope (the scope itself when it is one). -/
def variableScope (scope : ScopeChain) : ScopeChain :=
  scope.dropWhile (fun f => !isVariableScopeType f.stype)

/-- Embeds `isClassStaticInitializerScope` of `no-use-before-define`:
`class-static-block` scopes, and `class-field-initializer` scopes whose
`PropertyDefinition` is `static`. -/
def isClassStaticInitializerScope (scope : ScopeChain) : Bool :=
  match scope with
  | ⟨_, .classStaticBlock⟩ :: _ => true
  | ⟨_, .classFieldInitializer isStatic⟩ :: _ => isStatic
  | _ => false

/-- Embeds the `while` loop of `isFromSeparateExecutionContext`: ascend
from the reference's scope; a mismatching variable scope that is a class
static initializer is stepped through via its `upper`, any other mismatch
means a separate execution context.  For structural recursion the
`dropWhile` of `variableScope` is inlined: a non-variable-scope frame is
skipped, since the loop only ever looks at `scope.variableScope`.  The
lemma `sepLoop_unfold` below recovers the literal loop body. -/
def sepLoop (variableScopeOfBinding : ScopeChain) : ScopeChain → Bool
  | [] =>
    if variableScope variableScopeOfBinding = [] then false else true
  | f :: upper =>
    if !isVariableScopeType f.stype then
      sepLoop variableScopeOfBinding upper
    else if variableScope variableScopeOfBinding = f :: upper then false
    else if isClassStaticInitializerScope (f :: upper) then
      sepLoop variableScopeOfBinding upper
    else true

theorem variableScope_cons_var (f : ScopeFrame) (upper : ScopeChain)
    (h : isVariableScopeType f.stype = true) :
    variableScope (f :: upper) = f :: upper := by
  simp [variableScope, List.dropWhile_cons, h]

theorem variableScope_cons_nonvar (f : ScopeFrame) (upper : ScopeChain)
    (h : isVariableScopeType f.stype = false) :
    variableScope (f :: upper) = variableScope upper := by
  simp [variableScope, List.dropWhile_cons, h]

/-- The body of the source's `while` loop, recovered as an equation: the
loop compares `variable.scope.variableScope` with `scope.variableScope`,
steps through a class-static-initializer variable scope via its `upper`,
and otherwise reports a separate execution context. -/
theorem sepLoop_unfold (v scope : ScopeChain) :
    sepLoop v scope =
      (if variableScope v = variableScope scope then false
       else if isClassStaticInitializerScope (variableScope scope) then
         sepLoop v (variableScope scope).tail
       else true) := by
  induction scope with
  | nil =>
    simp only [sepLoop, variableScope, List.dropWhile_nil]
    by_cases h : variableScope v = [] <;>
      simp [variableScope, isClassStaticInitializerScope, h]
  | cons f upper ih =>
    by_cases hv : isVariableScopeType f.stype
    · rw [variableScope_cons_var f upper hv]
      simp only [sepLoop, hv, Bool.not_true, List.tail_cons]
      simp
    · rw [variableScope_cons_nonvar f upper (by simpa using hv)]
      simp only [sepLoop, hv, Bool.not_false]
      simp only [if_true]
      exact ih

/-- Wrapper mirroring `isFromSeparateExecutionContext(reference)`; defined
on the reference record below. -/
abbrev SepCtx := ScopeChain → ScopeChain → Bool

/-- Embeds the `SENTINEL_TYPE` regular expression:
`Function/Class` `Declaration/Expression`, `ArrowFunctionExpression`,
`CatchClause`, `ImportDeclaration`, `ExportNamedDeclaration`. -/
def sentinelType : NType → Bool
  | .functionDeclaration | .functionExpression | .arrowFunctionExpression
  | .classDeclaration | .classExpression | .catchClause
  | .importDeclaration | .exportNamedDeclaration => true
  | _ => false

/-- Embeds the `FOR_IN_OF_TYPE` regular expression. -/
def forInOfType : NType → Bool
  | .forInStatement | .forOfStatement => true
  | _ => false

/-- An AST node as read by the rule while walking `parent` chains.
`initRange`/`rightRange` are the ranges of the node's `init`/`right`
child (`none` when that child is absent).  `localIsSelf` and
`qualLeftmostIsSelf` encode `===` identity comparisons between a child of
this node and the reference identifier under consideration
(`parent.local === identifier`, and the leftmost name of a
`TSQualifiedName` chain being the identifier). -/
structure ANode where
  ntype : NType
  range : Nat × Nat
  initRange : Option (Nat × Nat) := none
  rightRange : Option (Nat × Nat) := none
  localIsSelf : Bool := false
  qualLeftmostIsSelf : Bool := false
deriving DecidableEq, Repr

/-- Embeds `isInRange(node, location)`; the `node &&` truthiness guard
becomes the `Option`. -/
def isInRange (range : Option (Nat × Nat)) (location : Nat) : Bool :=
  match range with
  | some r => r.1 ≤ location && location ≤ r.2
  | none => false

/-- One member of a `ClassBody` as read by
`isInClassStaticInitializerRange`: its type tag, range, `static` flag and
the range of its `value` child (`none` when absent). -/
structure ClassMember where
  mtype : NType
  range : Nat × Nat
  isStatic : Bool := false
  valueRange : Option (Nat × Nat) := none
deriving DecidableEq, Repr

/-- The `ClassDeclaration`/`ClassExpression` node owning a `ClassName`
definition: its range, the range of its `ClassBody`, the body's members
and the ranges of its decorators. -/
structure ClassDef where
  range : Nat × Nat
  bodyRange : Nat × Nat
  body : List ClassMember
  decorators : List (Nat × Nat) := []
deriving DecidableEq, Repr

/-- Embeds `isInClassStaticInitializerRange(node, location)`: the location
lies in a `StaticBlock` member, or in the `value` of a `static`
`PropertyDefinition` member. -/
def isInClassStaticInitializerRange (body : List ClassMember) (location : Nat) : Bool :=
  body.any fun classMember =>
    (classMember.mtype = .staticBlock && isInRange (some classMember.range) location) ||
    (classMember.mtype = .propertyDefinition && classMember.isStatic &&
      isInRange classMember.valueRange location)

/-- Definition type tags (`Definition#type` of `eslint-scope`). -/
inductive DefType where
  | variableDef
  | functionName
  | className
  | tsEnumName
  | typeDef
  | parameter
  | otherDef
deriving DecidableEq, Repr

/-- One `Definition`: its type tag, the range of its `name` identifier,
the chain of parents of that identifier (`definition.name.parent` first),
and for `ClassName` definitions the owning class node. -/
structure Definition where
  dtype : DefType
  nameRange : Nat × Nat
  nameParentChain : List ANode
  classNode : Option ClassDef := none
deriving DecidableEq, Repr

/-- One `Variable`: its owning scope and its definitions. -/
structure Variable where
  scope : ScopeChain
  defs : List Definition
deriving DecidableEq, Repr

/-- One `Reference`: its `init` flag, the range of its identifier, the
chain of the identifier's parents (`identifier.parent` first), the scope
it occurs in (`reference.from`) and the variable it resolved to. -/
structure Reference where
  init : Bool
  identRange : Nat × Nat
  identParentChain : List ANode
  fromScope : ScopeChain
  resolved : Option Variable
deriving DecidableEq, Repr

/-- Embeds `isFromSeparateExecutionContext(reference)`.  The source
dereferences `reference.resolved`; it is only called with resolved
references, so the unresolved case is mapped to `true`. -/
def isFromSeparateExecutionContext (reference : Reference) : Bool :=
  match reference.resolved with
  | some v => sepLoop v.scope reference.fromScope
  | none => true

/-- Embeds the upward `while (node)` walk of
`isEvaluatedDuringInitialization` for non-`ClassName` definitions,
operating on the parent chain of `definition.name`.  A
`VariableDeclarator` checks its `init` range and, through
`node.parent.parent`, the `right` of an enclosing `for-in`/`for-of` head,
then breaks; an `AssignmentPattern` checks its `right` range and
continues; a sentinel type breaks. -/
def initWalk (location : Nat) : List ANode → Bool
  | [] => false
  | node :: rest =>
    if node.ntype = .variableDeclarator then
      if isInRange node.initRange location then true
      else
        match rest with
        | _ :: pparent :: _ =>
          forInOfType pparent.ntype && isInRange pparent.rightRange location
        | _ => false
    else if node.ntype = .assignmentPattern then
      if isInRange node.rightRange location then true
      else initWalk location rest
    else if sentinelType node.ntype then false
    else initWalk location rest

/-- Embeds `isEvaluatedDuringInitialization(reference)`.  The source reads
`reference.resolved.defs[0]`; callers guarantee a resolved variable with a
non-empty `defs`, so the missing cases are mapped to `false`. -/
def isEvaluatedDuringInitialization (reference : Reference) : Bool :=
  if isFromSeparateExecutionContext reference then
    false
  else
    let location := reference.identRange.2
    match reference.resolved with
    | none => false
    | some v =>
      match v.defs.head? with
      | none => false
      | some definition =>
        if definition.dtype = .className then
          match definition.classNode with
          | some classDefinition =>
            isInRange (some classDefinition.range) location &&
              !isInClassStaticInitializerRange classDefinition.body location
          | none => false
        else
          initWalk location definition.nameParentChain

/-- The parsed rule options. -/
structure Options where
  functions : Bool
  classes : Bool
  «variables» : Bool
  allowNamedExports : Bool
  enums : Bool
  typedefs : Bool
  ignoreTypeReferences : Bool
deriving DecidableEq, Repr

/-- The raw value of `context.options[0]` as passed to `parseOptions`:
`undefined`, `null`, a string, or an options object. -/
inductive RawOptions where
  | undef
  | nul
  | str (s : String)
  | obj (o : Options)
deriving DecidableEq, Repr

/-- Embeds `parseOptions(options)`: a non-null object is returned as is;
otherwise `functions` is `options !== "nofunc"` when the value is a
string and `true` otherwise, with all remaining options defaulted. -/
def parseOptions (options : RawOptions) : Options :=
  match options with
  | .obj o => o
  | _ =>
    { functions :=
        match options with
        | .str s => s ≠ "nofunc"
        | _ => true
      classes := true
      «variables» := true
      allowNamedExports := false
      enums := true
      typedefs := true
      ignoreTypeReferences := true }

/-- Embeds `referenceContainsTypeQuery(node)` on the chain of node types
from the given node upward (`TSTypeQuery` found, keep climbing through
`TSQualifiedName`/`Identifier`, anything else stops). -/
def referenceContainsTypeQuery : List NType → Bool
  | [] => false
  | t :: rest =>
    match t with
    | .tsTypeQuery => true
    | .tsQualifiedName | .identifier => referenceContainsTypeQuery rest
    | _ => false

/-- Embeds `isClassRefInClassDecorator(variable, reference)`: the first
definition is a `ClassName` whose class node has decorators, and the
reference identifier's range lies inside one of them. -/
def isClassRefInClassDecorator (v : Variable) (reference : Reference) : Bool :=
  match v.defs.head? with
  | none => false
  | some d =>
    if d.dtype ≠ .className then false
    else
      match d.classNode with
      | none => false
      | some classNode =>
        if classNode.decorators.isEmpty then false
        else
          classNode.decorators.any fun deco =>
            deco.1 ≤ reference.identRange.1 && reference.identRange.2 ≤ deco.2

/-- Embeds `shouldCheck(reference)` of the rule's `create` closure. -/
def shouldCheck (options : Options) (reference : Reference) : Bool :=
  if reference.init then false
  else
    let parent := reference.identParentChain.head?
    if options.allowNamedExports &&
        (match parent with
         | some p => p.ntype = .exportSpecifier && p.localIsSelf
         | none => false) then false
    else
      match reference.resolved with
      | none => false
      | some v =>
        match v.defs with
        | [] => false
        | d :: _ =>
          let definitionType := d.dtype
          if !options.functions && definitionType = .functionName then false
          else if ((!options.«variables» && definitionType = .variableDef) ||
                   (!options.classes && definitionType = .className)) &&
                  isFromSeparateExecutionContext reference then false
          else if !options.enums && definitionType = .tsEnumName then false
          else if !options.typedefs && definitionType = .typeDef then false
          else if options.ignoreTypeReferences &&
                  (referenceContainsTypeQuery
                      (.identifier :: reference.identParentChain.map ANode.ntype) ||
                   (match parent with
                    | some p => p.ntype = .tsTypeReference
                    | none => false)) then false
          else
            match parent with
            | some p =>
              if p.ntype = .tsQualifiedName then p.qualLeftmostIsSelf
              else if isClassRefInClassDecorator v reference then false
              else true
            | none =>
              if isClassRefInClassDecorator v reference then false
              else true

/-- Embeds the reporting condition of `checkReferencesInScope`: the
reference ends before its definition's name ends, or it is evaluated
during the initialization and its parent is not a `TSTypeReference`.  The
source reads `reference.resolved.defs[0].name` with no further guard;
references reaching this point always have one, so the missing cases are
mapped to `false`. -/
def reportsReference (reference : Reference) : Bool :=
  match reference.resolved with
  | none => false
  | some v =>
    match v.defs with
    | [] => false
    | d :: _ =>
      reference.identRange.2 < d.nameRange.2 ||
      (isEvaluatedDuringInitialization reference &&
        (match reference.identParentChain.head? with
         | some p => p.ntype ≠ .tsTypeReference
         | none => true))

/-- A scope as visited by `checkReferencesInScope`: its references and
its child scopes. -/
inductive ScopeTree where
  | mk (references : List Reference) (childScopes : List ScopeTree)

mutual
/-- Embeds `checkReferencesInScope(scope)`: the references of the scope
that pass `shouldCheck` and trigger the report, followed by those of all
child scopes. -/
def checkReferencesInScope (options : Options) : ScopeTree → List Reference
  | .mk references childScopes =>
    references.filter (fun r => shouldCheck options r && reportsReference r) ++
      checkChildScopes options childScopes

/-- The recursion of `checkReferencesInScope` over `scope.childScopes`. -/
def checkChildScopes (options : Options) : List ScopeTree → List Reference
  | [] => []
  | t :: ts => checkReferencesInScope options t ++ checkChildScopes options ts
end

/-- Modelled from the spec: the ascent through enclosing variable scopes
described for `isFromSeparateExecutionContext`, parameterized by which
variable scopes are transparent.  The result lists every variable scope
the ascent can reach: the reference's own variable scope and, as long as
the last one reached is transparent, the variable scope of its upper
scope. -/
def ascentChainBy (transparent : ScopeChain → Bool) : ScopeChain → List ScopeChain
  | [] => []
  | f :: upper =>
    if !isVariableScopeType f.stype then
      ascentChainBy transparent upper
    else
      (f :: upper) :: (if transparent (f :: upper) then ascentChainBy transparent upper else [])

/-- Modelled from the spec: a variable scope the ascent passes through
transparently, as the spec words it — every class-static-block scope and
every class-field-initializer scope. -/
def transparentScopeSpec (scope : ScopeChain) : Bool :=
  match scope with
  | ⟨_, .classStaticBlock⟩ :: _ => true
  | ⟨_, .classFieldInitializer _⟩ :: _ => true
  | _ => false

/-- Modelled from the spec, amended to the code: a transparently passed
variable scope is a class-static-block scope or a class-field-initializer
scope of a `static` field. -/
def transparentScopeAmended (scope : ScopeChain) : Bool :=
  match scope with
  | ⟨_, .classStaticBlock⟩ :: _ => true
  | ⟨_, .classFieldInitializer isStatic⟩ :: _ => isStatic
  | _ => false

/-- The global scope of the concrete programs below. -/
def globalFrame : ScopeFrame := ⟨0, .globalScope⟩

/-- Modelled from the spec: the Scope Builder's output on `var a = a;`
(spec section 4.1; the Scope Builder is outside the excerpted sources) —
the definition of `a`, name at range `(4, 5)`, declarator `var a = a`
at `(4, 9)` with initializer range `(8, 9)`. -/
def varADef : Definition :=
  { dtype := .variableDef
    nameRange := (4, 5)
    nameParentChain :=
      [ { ntype := .variableDeclarator, range := (4, 9), initRange := some (8, 9) }
      , { ntype := .variableDeclaration, range := (0, 10) }
      , { ntype := .program, range := (0, 10) } ] }

/-- Modelled from the spec: the variable `a` of `var a = a;`, bound in the
global scope. -/
def varAVar : Variable := { scope := [globalFrame], defs := [varADef] }

/-- Modelled from the spec: the right-hand reference to `a` in
`var a = a;` — `init` is `false`, identifier at range `(8, 9)`, resolved
to the declared `a`. -/
def varARef : Reference :=
  { init := false
    identRange := (8, 9)
    identParentChain :=
      [ { ntype := .variableDeclarator, range := (4, 9), initRange := some (8, 9) }
      , { ntype := .variableDeclaration, range := (0, 10) }
      , { ntype := .program, range := (0, 10) } ]
    fromScope := [globalFrame]
    resolved := some varAVar }

/-- The global scope of `var a = a;` with its single reference. -/
def varAScopeTree : ScopeTree := .mk [varARef] []

/-- The class node of `class C { foo = C; }`: body at `(8, 20)` with one
non-static `PropertyDefinition` `foo = C` at `(10, 18)`, value `C` at
`(16, 17)`. -/
def cFieldClassDef : ClassDef :=
  { range := (0, 20)
    bodyRange := (8, 20)
    body := [ { mtype := .propertyDefinition, range := (10, 18), isStatic := false
              , valueRange := some (16, 17) } ] }

/-- Modelled from the spec: the `ClassName` definition of `C` in
`class C { foo = C; }`, name at `(6, 7)`. -/
def cFieldDef : Definition :=
  { dtype := .className
    nameRange := (6, 7)
    nameParentChain :=
      [ { ntype := .classDeclaration, range := (0, 20) }
      , { ntype := .program, range := (0, 20) } ]
    classNode := some cFieldClassDef }

/-- Modelled from the spec: the class binding `C` of
`class C { foo = C; }`, bound in the global scope. -/
def cFieldVar : Variable := { scope := [globalFrame], defs := [cFieldDef] }

/-- Modelled from the spec: the reference to `C` in the non-static field
initializer of `class C { foo = C; }`: it occurs in a
`class-field-initializer` scope of a non-static field, below the class
scope, below the global scope. -/
def cFieldRef : Reference :=
  { init := false
    identRange := (16, 17)
    identParentChain :=
      [ { ntype := .propertyDefinition, range := (10, 18) }
      , { ntype := .other, range := (8, 20) }
      , { ntype := .classDeclaration, range := (0, 20) }
      , { ntype := .program, range := (0, 20) } ]
    fromScope :=
      [ ⟨3, .classFieldInitializer false⟩, ⟨2, .classScope⟩, globalFrame ]
    resolved := some cFieldVar }

/-- The class node of `class C { static foo = 1; static { bar = C; } }`:
body at `(8, 47)`, static field `static foo = 1;` at `(10, 25)` with
value at `(23, 24)`, static block at `(26, 45)`. -/
def cStaticClassDef : ClassDef :=
  { range := (0, 47)
    bodyRange := (8, 47)
    body :=
      [ { mtype := .propertyDefinition, range := (10, 25), isStatic := true
        , valueRange := some (23, 24) }
      , { mtype := .staticBlock, range := (26, 45), isStatic := true } ] }

/-- Modelled from the spec: the `ClassName` definition of `C` in
`class C { static foo = 1; static { bar = C; } }`, name at `(6, 7)`. -/
def cStaticDef : Definition :=
  { dtype := .className
    nameRange := (6, 7)
    nameParentChain :=
      [ { ntype := .classDeclaration, range := (0, 47) }
      , { ntype := .program, range := (0, 47) } ]
    classNode := some cStaticClassDef }

/-- Modelled from the spec: the class binding `C` of
`class C { static foo = 1; static { bar = C; } }`. -/
def cStaticVar : Variable := { scope := [globalFrame], defs := [cStaticDef] }

/-- Modelled from the spec: the reference to `C` inside the static block
of `class C { static foo = 1; static { bar = C; } }`, identifier at
`(41, 42)`, occurring in the `class-static-block` scope. -/
def cStaticRef : Reference :=
  { init := false
    identRange := (41, 42)
    identParentChain :=
      [ { ntype := .assignmentExpression, range := (35, 42) }
      , { ntype := .expressionStatement, range := (35, 43) }
      , { ntype := .staticBlock, range := (26, 45) }
      , { ntype := .other, range := (8, 47) }
      , { ntype := .classDeclaration, range := (0, 47) }
      , { ntype := .program, range := (0, 47) } ]
    fromScope := [ ⟨5, .classStaticBlock⟩, ⟨4, .classScope⟩, globalFrame ]
    resolved := some cStaticVar }

/-- The global scope of `class C { static foo = 1; static { bar = C; } }`
with the static-block reference (child scopes omitted: the reference is
listed where it is checked). -/
def cStaticScopeTree : ScopeTree := .mk [cStaticRef] []

/-- The class node of `class C { [C]; }`: body at `(8, 16)` with one
non-static computed-key `PropertyDefinition` `[C];` at `(10, 14)` and no
value. -/
def cComputedClassDef : ClassDef :=
  { range := (0, 16)
    bodyRange := (8, 16)
    body := [ { mtype := .propertyDefinition, range := (10, 14), isStatic := false } ] }

/-- Modelled from the spec: the `ClassName` definition of `C` in
`class C { [C]; }`, name at `(6, 7)`. -/
def cComputedDef : Definition :=
  { dtype := .className
    nameRange := (6, 7)
    nameParentChain :=
      [ { ntype := .classDeclaration, range := (0, 16) }
      , { ntype := .program, range := (0, 16) } ]
    classNode := some cComputedClassDef }

/-- Modelled from the spec: the class binding `C` of `class C { [C]; }`. -/
def cComputedVar : Variable := { scope := [globalFrame], defs := [cComputedDef] }

/-- Modelled from the spec: the reference to `C` in the computed key of
`class C { [C]; }`, identifier at `(11, 12)`; computed keys are evaluated
in the class scope, which is not a variable scope. -/
def cComputedRef : Reference :=
  { init := false
    identRange := (11, 12)
    identParentChain :=
      [ { ntype := .propertyDefinition, range := (10, 14) }
      , { ntype := .other, range := (8, 16) }
      , { ntype := .classDeclaration, range := (0, 16) }
      , { ntype := .program, range := (0, 16) } ]
    fromScope := [ ⟨6, .classScope⟩, globalFrame ]
    resolved := some cComputedVar }

/-- Modelled from the spec: the variable `x` of
`const x = 1; class A { field = x; }`, name at `(6, 7)`, bound in the
global scope. -/
def xVar : Variable :=
  { scope := [globalFrame]
    defs :=
      [ { dtype := .variableDef
          nameRange := (6, 7)
          nameParentChain :=
            [ { ntype := .variableDeclarator, range := (6, 11), initRange := some (10, 11) }
            , { ntype := .variableDeclaration, range := (0, 12) }
            , { ntype := .program, range := (0, 36) } ] } ] }

/-- Modelled from the spec: the reference to `x` in the non-static field
initializer of `const x = 1; class A { field = x; }`: it occurs in a
`class-field-initializer` scope of a non-static field. -/
def xFieldRef : Reference :=
  { init := false
    identRange := (31, 32)
    identParentChain :=
      [ { ntype := .propertyDefinition, range := (23, 33) }
      , { ntype := .other, range := (21, 35) }
      , { ntype := .classDeclaration, range := (13, 35) }
      , { ntype := .program, range := (0, 36) } ]
    fromScope :=
      [ ⟨8, .classFieldInitializer false⟩, ⟨7, .classScope⟩, globalFrame ]
    resolved := some xVar }

/-- Modelled from the spec: the `FunctionName` definition of `f` in
`function f(){} f();`, name at `(9, 10)`; the identifier's parent is the
`FunctionDeclaration` itself, a sentinel type. -/
def funcFDef : Definition :=
  { dtype := .functionName
    nameRange := (9, 10)
    nameParentChain :=
      [ { ntype := .functionDeclaration, range := (0, 14) }
      , { ntype := .program, range := (0, 19) } ] }

/-- Modelled from the spec: the variable `f` of `function f(){} f();`. -/
def funcFVar : Variable := { scope := [globalFrame], defs := [funcFDef] }

/-- Modelled from the spec: the call reference to `f` in
`function f(){} f();`, identifier at `(15, 16)`. -/
def funcFRef : Reference :=
  { init := false
    identRange := (15, 16)
    identParentChain :=
      [ { ntype := .callExpression, range := (15, 18) }
      , { ntype := .expressionStatement, range := (15, 19) }
      , { ntype := .program, range := (0, 19) } ]
    fromScope := [globalFrame]
    resolved := some funcFVar }

/-- The global scope of `function f(){} f();` with its call reference. -/
def funcFScopeTree : ScopeTree := .mk [funcFRef] []

theorem shouldCheck_init_false (options : Options) (r : Reference)
    (h : shouldCheck options r = true) : r.init = false := by
  by_cases hi : r.init
  · rw [shouldCheck, if_pos hi] at h
    exact absurd h (by simp)
  · simpa using hi

mutual
theorem mem_check_shouldCheck (options : Options) :
    ∀ (t : ScopeTree) (r : Reference),
      r ∈ checkReferencesInScope options t → shouldCheck options r = true
  | .mk references childScopes, r, h => by
    rw [checkReferencesInScope] at h
    rcases List.mem_append.mp h with h1 | h2
    · have hp := List.of_mem_filter h1
      simp only [Bool.and_eq_true] at hp
      exact hp.1
    · exact mem_children_shouldCheck options childScopes r h2

theorem mem_children_shouldCheck (options : Options) :
    ∀ (ts : List ScopeTree) (r : Reference),
      r ∈ checkChildScopes options ts → shouldCheck options r = true
  | [], r, h => by rw [checkChildScopes] at h; exact absurd h (by simp)
  | t :: ts, r, h => by
    rw [checkChildScopes] at h
    rcases List.mem_append.mp h with h1 | h2
    · exact mem_check_shouldCheck options t r h1
    · exact mem_children_shouldCheck options ts r h2
end

theorem transparentScopeAmended_eq_csi (s : ScopeChain) :
    transparentScopeAmended s = isClassStaticInitializerScope s := by
  match s with
  | [] => rfl
  | ⟨i, t⟩ :: rest => cases t <;> rfl

theorem sepLoop_iff_ascent (v : ScopeChain) (hv : variableScope v ≠ []) :
    ∀ s : ScopeChain,
      sepLoop v s = false ↔ variableScope v ∈ ascentChainBy transparentScopeAmended s := by
  intro s
  induction s with
  | nil =>
    simp [sepLoop, ascentChainBy, hv]
  | cons f upper ih =>
    by_cases hvar : isVariableScopeType f.stype
    · simp only [sepLoop, ascentChainBy, hvar, Bool.not_true]
      simp only [Bool.false_eq_true, if_false]
      by_cases heq : variableScope v = f :: upper
      · simp [heq]
      · rw [if_neg heq]
        by_cases hcsi : isClassStaticInitializerScope (f :: upper)
        · rw [if_pos hcsi]
          rw [transparentScopeAmended_eq_csi] at *
          simp only [hcsi, if_true, List.mem_cons]
          rw [ih]
          simp [heq]
        · rw [if_neg hcsi]
          rw [transparentScopeAmended_eq_csi] at *
          simp only [hcsi, Bool.false_eq_true, if_false, List.mem_singleton]
          simp [heq]
    · simp only [sepLoop, ascentChainBy, hvar, Bool.not_false, if_true]
      exact ih

theorem initWalk_sentinel (location : Nat) (pre : List ANode) (s : ANode)
    (rest : List ANode)
    (hpre : ∀ n ∈ pre, n.ntype ≠ .variableDeclarator ∧ n.ntype ≠ .assignmentPattern ∧
      sentinelType n.ntype = false)
    (hs : sentinelType s.ntype = true) :
    initWalk location (pre ++ s :: rest) = false := by
  induction pre with
  | nil =>
    have h1 : s.ntype ≠ .variableDeclarator := by
      intro h; rw [h] at hs; exact absurd hs (by simp [sentinelType])
    have h2 : s.ntype ≠ .assignmentPattern := by
      intro h; rw [h] at hs; exact absurd hs (by simp [sentinelType])
    simp [initWalk, h1, h2, hs]
  | cons n pre ih =>
    obtain ⟨h1, h2, h3⟩ := hpre n (List.mem_cons_self ..)
    have hrest := fun m hm => hpre m (List.mem_cons_of_mem _ hm)
    simp only [List.cons_append, initWalk, h1, h2, h3]
    simp only [Bool.false_eq_true, if_false]
    exact ih hrest

/-- Claim C1 (counterexample): in `class C { foo = C; }` the reference to
`C` in the non-static field initializer lies inside the class body's
range and outside every static-initializer range, its variable's first
definition is a `ClassName`, yet `isEvaluatedDuringInitialization`
returns `false` (the non-static field initializer is a separate execution
context), contradicting the claim's second half. -/
theorem classname_static_initializer_counterexample :
    cFieldRef.resolved = some cFieldVar ∧
    cFieldVar.defs.head? = some cFieldDef ∧
    cFieldDef.dtype = .className ∧
    cFieldDef.classNode = some cFieldClassDef ∧
    isInRange (some cFieldClassDef.bodyRange) cFieldRef.identRange.2 = true ∧
    isInClassStaticInitializerRange cFieldClassDef.body cFieldRef.identRange.2 = false ∧
    isEvaluatedDuringInitialization cFieldRef = false := by
  refine ⟨rfl, rfl, rfl, rfl, by decide, by decide, by decide⟩

/-- Claim C1 (amended): for a reference whose variable's first definition
is a `ClassName`, `isEvaluatedDuringInitialization` returns `false`
whenever the identifier lies inside a static initializer of the class,
and returns `true` when the identifier lies inside the class body's
range but outside every static-initializer range, provided the reference
is not evaluated in a separate execution context; in particular the
static-block reference of `class C { static foo = 1; static { bar = C; } }`
is not reported as used-before-defined. -/
theorem classname_initialization_amended (r : Reference) (v : Variable)
    (d : Definition) (c : ClassDef)
    (hres : r.resolved = some v) (hd : v.defs.head? = some d)
    (ht : d.dtype = .className) (hc : d.classNode = some c)
    (hwf : c.range.1 ≤ c.bodyRange.1 ∧ c.bodyRange.2 ≤ c.range.2) :
    (isInClassStaticInitializerRange c.body r.identRange.2 = true →
      isEvaluatedDuringInitialization r = false) ∧
    (isFromSeparateExecutionContext r = false →
      isInRange (some c.bodyRange) r.identRange.2 = true →
      isInClassStaticInitializerRange c.body r.identRange.2 = false →
      isEvaluatedDuringInitialization r = true) ∧
    cStaticRef ∉ checkReferencesInScope (parseOptions .undef) cStaticScopeTree := by
  refine ⟨?_, ?_, by decide⟩
  · intro hstatic
    by_cases hsep : isFromSeparateExecutionContext r
    · simp [isEvaluatedDuringInitialization, hsep]
    · simp [isEvaluatedDuringInitialization, hsep, hres, hd, ht, hc, hstatic]
  · intro hsep hin hstatic
    simp only [isEvaluatedDuringInitialization, hsep, Bool.false_eq_true, if_false,
      hres, hd, ht, if_pos, hc]
    simp only [hstatic, Bool.not_false, Bool.and_true]
    simp only [isInRange] at hin ⊢
    simp only [Bool.and_eq_true, decide_eq_true_eq] at hin ⊢
    omega

/-- Witness for the amended claim C1 at the scenarios
`class C { static foo = 1; static { bar = C; } }` (reference inside the
static block: not during initialization, and not reported) and
`class C { [C]; }` (reference in a computed key: during
initialization). -/
theorem classname_initialization_amended_witness :
    isEvaluatedDuringInitialization cStaticRef = false ∧
    cStaticRef ∉ checkReferencesInScope (parseOptions .undef) cStaticScopeTree ∧
    isEvaluatedDuringInitialization cComputedRef = true := by
  refine ⟨?_, ?_, ?_⟩
  · exact (classname_initialization_amended cStaticRef cStaticVar cStaticDef
      cStaticClassDef rfl rfl rfl rfl (by decide)).1 (by decide)
  · exact (classname_initialization_amended cStaticRef cStaticVar cStaticDef
      cStaticClassDef rfl rfl rfl rfl (by decide)).2.2
  · exact (classname_initialization_amended cComputedRef cComputedVar cComputedDef
      cComputedClassDef rfl rfl rfl rfl (by decide)).2.1 (by decide) (by decide) (by decide)

/-- Claim C2 (counterexample): in `const x = 1; class A { field = x; }`
the reference to `x` from the non-static class-field-initializer scope
reaches the binding's variable scope under the spec's transparency rule
(every class-field-initializer scope transparent), yet
`isFromSeparateExecutionContext` returns `true` — the code only treats
initializers of `static` fields as transparent. -/
theorem separate_context_transparency_counterexample :
    xFieldRef.resolved = some xVar ∧
    variableScope xVar.scope ∈ ascentChainBy transparentScopeSpec xFieldRef.fromScope ∧
    isFromSeparateExecutionContext xFieldRef = true := by
  refine ⟨rfl, by decide, by decide⟩

/-- Claim C2 (amended): for a reference with a resolved variable (whose
scope chain contains a variable scope), `isFromSeparateExecutionContext`
returns `false` iff ascending from the reference's scope through
enclosing variable scopes — treating class-static-block scopes and
class-field-initializer scopes of `static` fields as transparent —
reaches the variable scope of the binding. -/
theorem separate_context_iff_ascent (r : Reference) (v : Variable)
    (hres : r.resolved = some v) (hv : variableScope v.scope ≠ []) :
    isFromSeparateExecutionContext r = false ↔
      variableScope v.scope ∈ ascentChainBy transparentScopeAmended r.fromScope := by
  simp only [isFromSeparateExecutionContext, hres]
  exact sepLoop_iff_ascent v.scope hv r.fromScope

/-- Witness for the amended claim C2: the static-block reference of
`class C { static foo = 1; static { bar = C; } }` is in the same
execution context, and its ascent reaches the global scope. -/
theorem separate_context_iff_ascent_witness :
    variableScope cStaticVar.scope ∈
      ascentChainBy transparentScopeAmended cStaticRef.fromScope :=
  (separate_context_iff_ascent cStaticRef cStaticVar rfl (by decide)).mp (by decide)

/-- Claim C3: a reference with `init = true` is never reported by the
use-before-define check, whatever the options, the scope tree and the
reference's other data. -/
theorem init_references_never_reported (options : Options) (t : ScopeTree)
    (r : Reference) (h : r ∈ checkReferencesInScope options t) : r.init = false :=
  shouldCheck_init_false options r (mem_check_shouldCheck options t r h)

/-- Witness for claim C3 at `var a = a;`: the reported right-hand
reference indeed has `init = false`. -/
theorem init_references_never_reported_witness : varARef.init = false :=
  init_references_never_reported (parseOptions .undef) varAScopeTree varARef (by decide)

/-- Claim C4: for a non-`ClassName` definition, the upward walk of
`isEvaluatedDuringInitialization` returns `false` as soon as it crosses a
sentinel node (nested function, class, catch or import boundary), when no
`VariableDeclarator` or `AssignmentPattern` precedes the sentinel on the
chain. -/
theorem sentinel_stops_init_walk (r : Reference) (v : Variable) (d : Definition)
    (pre : List ANode) (s : ANode) (rest : List ANode)
    (hres : r.resolved = some v) (hd : v.defs.head? = some d)
    (ht : d.dtype ≠ .className) (hchain : d.nameParentChain = pre ++ s :: rest)
    (hpre : ∀ n ∈ pre, n.ntype ≠ .variableDeclarator ∧ n.ntype ≠ .assignmentPattern ∧
      sentinelType n.ntype = false)
    (hs : sentinelType s.ntype = true) :
    isEvaluatedDuringInitialization r = false := by
  by_cases hsep : isFromSeparateExecutionContext r
  · simp [isEvaluatedDuringInitialization, hsep]
  · simp only [isEvaluatedDuringInitialization, hsep, Bool.false_eq_true, if_false,
      hres, hd, ht, if_neg, hchain]
    exact initWalk_sentinel r.identRange.2 pre s rest hpre hs

/-- Witness for claim C4 at `function f(){} f();`: the definition's name
parent is the `FunctionDeclaration` itself, a sentinel, so the walk (and
the whole check) yields `false`. -/
theorem sentinel_stops_init_walk_witness :
    isEvaluatedDuringInitialization funcFRef = false :=
  sentinel_stops_init_walk funcFRef funcFVar funcFDef []
    { ntype := .functionDeclaration, range := (0, 14) }
    [{ ntype := .program, range := (0, 19) }]
    rfl rfl (by decide) rfl (by intro n hn; exact absurd hn (by simp)) (by decide)

/-- Claim C5: for `var a = a;`, the right-hand reference to `a` has
`init = false`, resolves to the declared `a`,
`isEvaluatedDuringInitialization` returns `true` for it, and the rule
reports it. -/
theorem var_a_self_init_reported :
    varARef.init = false ∧ varARef.resolved = some varAVar ∧
    isEvaluatedDuringInitialization varARef = true ∧
    varARef ∈ checkReferencesInScope (parseOptions .undef) varAScopeTree := by
  refine ⟨rfl, rfl, by decide, by decide⟩

/-- Claim C6: every reference that passes `shouldCheck` has a resolved
variable with a non-empty `defs`, and on such a reference the reporting
comparison is exactly the unguarded read of `defs[0].name`. -/
theorem checked_reference_has_definition (options : Options) (r : Reference)
    (h : shouldCheck options r = true) :
    ∃ v d rest, r.resolved = some v ∧ v.defs = d :: rest ∧
      reportsReference r =
        (r.identRange.2 < d.nameRange.2 ||
          (isEvaluatedDuringInitialization r &&
            (match r.identParentChain.head? with
             | some p => p.ntype ≠ .tsTypeReference
             | none => true))) := by
  by_cases hi : r.init
  · rw [shouldCheck, if_pos hi] at h
    exact absurd h (by simp)
  · cases hres : r.resolved with
    | none => simp [shouldCheck, hi, hres] at h
    | some v =>
      cases hdefs : v.defs with
      | nil => simp [shouldCheck, hi, hres, hdefs] at h
      | cons d rest =>
        exact ⟨v, d, rest, rfl, hdefs, by simp [reportsReference, hres, hdefs]⟩

/-- Witness for claim C6 at `var a = a;`. -/
theorem checked_reference_has_definition_witness :
    ∃ v d rest, varARef.resolved = some v ∧ v.defs = d :: rest ∧
      reportsReference varARef =
        (varARef.identRange.2 < d.nameRange.2 ||
          (isEvaluatedDuringInitialization varARef &&
            (match varARef.identParentChain.head? with
             | some p => p.ntype ≠ .tsTypeReference
             | none => true))) :=
  checked_reference_has_definition (parseOptions .undef) varARef (by decide)

/-- Claim C7: with the `functions` option `false`, a resolved reference
whose first definition is a `FunctionName` is never checked — and in
particular `function f(){} f();` under `"nofunc"` produces no report. -/
theorem nofunc_function_reference_skipped (options : Options) (r : Reference)
    (v : Variable) (d : Definition) (rest : List Definition)
    (ho : options.functions = false) (hres : r.resolved = some v)
    (hd : v.defs = d :: rest) (ht : d.dtype = .functionName) :
    shouldCheck options r = false ∧
    funcFRef ∉ checkReferencesInScope (parseOptions (.str "nofunc")) funcFScopeTree := by
  constructor
  · by_cases hi : r.init
    · simp [shouldCheck, hi]
    · simp [shouldCheck, hi, hres, hd, ho, ht]
  · decide

/-- Witness for claim C7 at `function f(){} f();` with `"nofunc"`. -/
theorem nofunc_function_reference_skipped_witness :
    shouldCheck (parseOptions (.str "nofunc")) funcFRef = false :=
  (nofunc_function_reference_skipped (parseOptions (.str "nofunc")) funcFRef
    funcFVar funcFDef [] (by decide) rfl rfl rfl).1

end NoUseBeforeDefine

namespace NoLabels

/-- Node type tags relevant to the `no-labels` rule. -/
inductive RType where
  | labeledStatement
  | breakStatement
  | continueStatement
  | doWhileStatement
  | forInStatement
  | forOfStatement
  | forStatement
  | whileStatement
  | switchStatement
  | otherNode
deriving DecidableEq, Repr

/-- The `ast-utils` helper `isLoop` (the helper module is outside the
excerpted sources; its five loop statement types are standard). -/
def isLoop : RType → Bool
  | .doWhileStatement | .forInStatement | .forOfStatement
  | .forStatement | .whileStatement => true
  | _ => false

/-- An AST subtree as traversed by the engine: a type tag, the label name
(meaningful for `LabeledStatement` nodes, whose `label.name` it is) and
the child nodes in document order; a `LabeledStatement`'s `body` is its
first child. -/
inductive RTree where
  | node (ty : RType) (label : String) (children : List RTree)

/-- The kinds tracked per label by the rule. -/
inductive LabelKind where
  | loop
  | switchKind
  | otherKind
deriving DecidableEq, Repr

/-- One entry of the rule's `scopeInfo` stack (`upper` is the tail of the
list). -/
structure LabelInfo where
  label : String
  kind : LabelKind
deriving DecidableEq, Repr

/-- Embeds `getBodyKind(node)` of the `no-labels` rule. -/
def getBodyKind (t : RTree) : LabelKind :=
  match t with
  | .node ty _ _ =>
    if isLoop ty then .loop
    else if ty = .switchStatement then .switchKind
    else .otherKind

/-- `getBodyKind` applied to a `LabeledStatement`'s `body` (its first
child; a labeled statement always has one, so the empty case is
unreachable). -/
def bodyKindOf (children : List RTree) : LabelKind :=
  match children with
  | body :: _ => getBodyKind body
  | [] => .otherKind

mutual
/-- Modelled from the spec: the engine's depth-first traversal (spec
section 4.3 — the traversal engine is outside the excerpted sources),
running the `no-labels` handlers: `LabeledStatement` pushes
`{label, kind, upper}` onto `scopeInfo` on entry and pops it on exit
(after the whole subtree, children before later siblings);
`BreakStatement`/`ContinueStatement` handlers observe the current
`scopeInfo`, recorded here in the returned log.  Returns the final
`scopeInfo` and the log of stacks observed at break/continue handlers,
in visit order. -/
def visit (scopeInfo : List LabelInfo) : RTree → List LabelInfo × List (List LabelInfo)
  | .node ty label children =>
    let entered :=
      if ty = .labeledStatement then ⟨label, bodyKindOf children⟩ :: scopeInfo
      else scopeInfo
    let hereLog : List (List LabelInfo) :=
      if ty = .breakStatement ∨ ty = .continueStatement then [entered] else []
    let result := visitList entered children
    let final := if ty = .labeledStatement then result.1.tail else result.1
    (final, hereLog ++ result.2)

/-- The traversal over a list of sibling subtrees, threading `scopeInfo`. -/
def visitList (scopeInfo : List LabelInfo) : List RTree → List LabelInfo × List (List LabelInfo)
  | [] => (scopeInfo, [])
  | t :: ts =>
    let r1 := visit scopeInfo t
    let r2 := visitList r1.1 ts
    (r2.1, r1.2 ++ r2.2)
end

mutual
/-- Modelled from the spec: the specification-side log — for every
break/continue node, the `LabelInfo` entries of the `LabeledStatement`
ancestors enclosing it, innermost first, on top of the ambient stack. -/
def enclosingLog (anc : List LabelInfo) : RTree → List (List LabelInfo)
  | .node ty label children =>
    let anc' :=
      if ty = .labeledStatement then ⟨label, bodyKindOf children⟩ :: anc
      else anc
    (if ty = .breakStatement ∨ ty = .continueStatement then [anc'] else []) ++
      enclosingLogList anc' children

/-- `enclosingLog` over a list of sibling subtrees. -/
def enclosingLogList (anc : List LabelInfo) : List RTree → List (List LabelInfo)
  | [] => []
  | t :: ts => enclosingLog anc t ++ enclosingLogList anc ts
end

mutual
theorem visit_eq (scopeInfo : List LabelInfo) :
    ∀ t : RTree, visit scopeInfo t = (scopeInfo, enclosingLog scopeInfo t)
  | .node ty label children => by
    rw [visit, enclosingLog]
    by_cases h : ty = .labeledStatement
    · subst h
      have hl := visitList_eq (⟨label, bodyKindOf children⟩ :: scopeInfo) children
      simp [hl]
    · have hl := visitList_eq scopeInfo children
      simp [h, hl]

theorem visitList_eq (scopeInfo : List LabelInfo) :
    ∀ ts : List RTree, visitList scopeInfo ts = (scopeInfo, enclosingLogList scopeInfo ts)
  | [] => by rw [visitList, enclosingLogList]
  | t :: ts => by
    rw [visitList, enclosingLogList]
    rw [visit_eq scopeInfo t, visitList_eq scopeInfo ts]
end

/-- Claim C8: under the depth-first traversal, the `no-labels` rule's
`scopeInfo` stack is restored to its pre-entry value by every
`LabeledStatement:exit`, and at the moment any break/continue handler
runs, `scopeInfo` is exactly the list of enclosing labeled statements'
entries, innermost first, on top of the ambient stack — for every
starting stack and subtree, the traversal returns the starting stack
unchanged and logs exactly the enclosing-label stacks. -/
theorem scope_info_stack_correct (scopeInfo : List LabelInfo) (t : RTree) :
    visit scopeInfo t = (scopeInfo, enclosingLog scopeInfo t) :=
  visit_eq scopeInfo t

end NoLabels

namespace Quotes

/-- The double-quote character. -/
def doubleQuoteChar : Char := Char.ofNat 34
/-- The single-quote character. -/
def singleQuoteChar : Char := Char.ofNat 39
/-- The backslash character. -/
def backslashChar : Char := Char.ofNat 92
/-- The backtick character. -/
def backtickChar : Char := Char.ofNat 96
/-- The dollar character. -/
def dollarChar : Char := Char.ofNat 36
/-- The opening-brace character. -/
def lbraceChar : Char := Char.ofNat 123

/-- The quote styles of the rule's first option. -/
inductive QuoteOption where
  | double
  | single
  | backtick
deriving DecidableEq, Repr

/-- One entry of `QUOTE_SETTINGS`. -/
structure QuoteSetting where
  quote : Char
  alternateQuote : Char
  description : String
deriving DecidableEq, Repr

/-- Embeds the `QUOTE_SETTINGS` table. -/
def QUOTE_SETTINGS : QuoteOption → QuoteSetting
  | .double => ⟨doubleQuoteChar, singleQuoteChar, "doublequote"⟩
  | .single => ⟨singleQuoteChar, doubleQuoteChar, "singlequote"⟩
  | .backtick => ⟨backtickChar, doubleQuoteChar, "backtick"⟩

/-- The line separator characters U+2028/U+2029, which the regex `.`
(with the `u` flag) does not match. -/
def isLineSeparatorChar (c : Char) : Bool :=
  c.toNat = 8232 || c.toNat = 8233

/-- One match of the `convert` regex: the matched text, the first capture
group (the character(s) following a backslash) and the second capture
group (a bare newline). -/
structure RegexMatch where
  matched : List Char
  escaped : Option (List Char)
  newline : Option (List Char)
deriving DecidableEq, Repr

/-- Embeds the replacement callback of `convert`: unescape the old quote
(and `\x24\x7b` when coming from backticks), escape the new quote (and
the interpolation opener when going to backticks), escape bare newlines
when coming from backticks, otherwise keep the match. -/
def replaceCallback (newQuote : Char) (oldQuote : Option Char) (m : RegexMatch) : List Char :=
  if (match m.escaped, oldQuote with
      | some esc, some oq => esc = [oq]
      | _, _ => false) ||
     (oldQuote = some backtickChar && m.escaped = some [dollarChar, lbraceChar]) then
    m.escaped.getD []
  else if m.matched = [newQuote] ||
          (newQuote = backtickChar && m.matched = [dollarChar, lbraceChar]) then
    backslashChar :: m.matched
  else if (match m.newline with | some nl => !nl.isEmpty | none => false) &&
          oldQuote = some backtickChar then
    [backslashChar, 'n']
  else m.matched

/-- Embeds the global regex replacement of `convert` over the unquoted
body.  The regex alternatives are, in order: a backslash followed by the
interpolation opener, `\r\n?`, `\n` or any non-line-terminator character
(capture group 1); one of the three quote characters; the interpolation
opener; a bare `\r\n?` or `\n` (capture group 2).  Positions where no
alternative matches are copied unchanged. -/
def runReplace (newQuote : Char) (oldQuote : Option Char) : List Char → List Char
  | [] => []
  | [c] =>
    if c = backslashChar then [c]
    else if c = doubleQuoteChar ∨ c = singleQuoteChar ∨ c = backtickChar then
      replaceCallback newQuote oldQuote ⟨[c], none, none⟩
    else if c = '\r' ∨ c = '\n' then
      replaceCallback newQuote oldQuote ⟨[c], none, some [c]⟩
    else [c]
  | [c, c2] =>
    if c = backslashChar then
      if isLineSeparatorChar c2 then [c, c2]
      else replaceCallback newQuote oldQuote ⟨[backslashChar, c2], some [c2], none⟩
    else if c = doubleQuoteChar ∨ c = singleQuoteChar ∨ c = backtickChar then
      replaceCallback newQuote oldQuote ⟨[c], none, none⟩ ++
        runReplace newQuote oldQuote [c2]
    else if c = dollarChar ∧ c2 = lbraceChar then
      replaceCallback newQuote oldQuote ⟨[dollarChar, lbraceChar], none, none⟩
    else if c = '\r' ∧ c2 = '\n' then
      replaceCallback newQuote oldQuote ⟨['\r', '\n'], none, some ['\r', '\n']⟩
    else if c = '\r' ∨ c = '\n' then
      replaceCallback newQuote oldQuote ⟨[c], none, some [c]⟩ ++
        runReplace newQuote oldQuote [c2]
    else
      c :: runReplace newQuote oldQuote [c2]
  | c :: c2 :: c3 :: rest =>
    if c = backslashChar then
      if c2 = dollarChar ∧ c3 = lbraceChar then
        replaceCallback newQuote oldQuote
            ⟨[backslashChar, dollarChar, lbraceChar], some [dollarChar, lbraceChar], none⟩ ++
          runReplace newQuote oldQuote rest
      else if c2 = '\r' ∧ c3 = '\n' then
        replaceCallback newQuote oldQuote
            ⟨[backslashChar, '\r', '\n'], some ['\r', '\n'], none⟩ ++
          runReplace newQuote oldQuote rest
      else if isLineSeparatorChar c2 then
        c :: runReplace newQuote oldQuote (c2 :: c3 :: rest)
      else
        replaceCallback newQuote oldQuote ⟨[backslashChar, c2], some [c2], none⟩ ++
          runReplace newQuote oldQuote (c3 :: rest)
    else if c = doubleQuoteChar ∨ c = singleQuoteChar ∨ c = backtickChar then
      replaceCallback newQuote oldQuote ⟨[c], none, none⟩ ++
        runReplace newQuote oldQuote (c2 :: c3 :: rest)
    else if c = dollarChar ∧ c2 = lbraceChar then
      replaceCallback newQuote oldQuote ⟨[dollarChar, lbraceChar], none, none⟩ ++
        runReplace newQuote oldQuote (c3 :: rest)
    else if c = '\r' ∧ c2 = '\n' then
      replaceCallback newQuote oldQuote ⟨['\r', '\n'], none, some ['\r', '\n']⟩ ++
        runReplace newQuote oldQuote (c3 :: rest)
    else if c = '\r' ∨ c = '\n' then
      replaceCallback newQuote oldQuote ⟨[c], none, some [c]⟩ ++
        runReplace newQuote oldQuote (c2 :: c3 :: rest)
    else
      c :: runReplace newQuote oldQuote (c2 :: c3 :: rest)
termination_by l => l.length
decreasing_by all_goals (simp [List.length_cons]; try omega)

/-- Embeds `convert(str)` of `QUOTE_SETTINGS`: when the string already
starts with the target quote it is returned unchanged; otherwise the body
(`str.slice(1, -1)`) is rewritten and wrapped in the new quote. -/
def convert (setting : QuoteSetting) (str : List Char) : List Char :=
  let newQuote := setting.quote
  let oldQuote := str.head?
  if oldQuote = some newQuote then str
  else
    newQuote :: (runReplace newQuote oldQuote ((str.drop 1).dropLast) ++ [newQuote])

theorem convert_head (setting : QuoteSetting) (str : List Char) :
    (convert setting str).head? = some setting.quote := by
  by_cases h : str.head? = some setting.quote
  · rw [convert]
    simp only [h, if_pos rfl]
    exact h
  · simp [convert, h]

/-- Claim C10: `convert` is idempotent — a string already starting with
the setting's quote is returned unchanged, the output always starts with
the setting's quote, and hence converting twice equals converting once,
for every quote setting. -/
theorem convert_idempotent :
    (∀ (o : QuoteOption) (s : List Char), 2 ≤ s.length →
       s.head? = some (QUOTE_SETTINGS o).quote →
       convert (QUOTE_SETTINGS o) s = s) ∧
    (∀ (o : QuoteOption) (s : List Char),
       (convert (QUOTE_SETTINGS o) s).head? = some (QUOTE_SETTINGS o).quote) ∧
    (∀ (o : QuoteOption) (s : List Char),
       convert (QUOTE_SETTINGS o) (convert (QUOTE_SETTINGS o) s) =
         convert (QUOTE_SETTINGS o) s) := by
  refine ⟨?_, ?_, ?_⟩
  · intro o s _ hhead
    rw [convert]
    simp [hhead]
  · intro o s
    exact convert_head (QUOTE_SETTINGS o) s
  · intro o s
    have hh := convert_head (QUOTE_SETTINGS o) s
    rw [convert]
    simp [hh]

/-- Witness for claim C10: converting an already single-quoted string
with the `single` setting returns it unchanged. -/
theorem convert_idempotent_witness :
    convert (QUOTE_SETTINGS .single) [singleQuoteChar, 'a', singleQuoteChar] =
      [singleQuoteChar, 'a', singleQuoteChar] :=
  convert_idempotent.1 .single [singleQuoteChar, 'a', singleQuoteChar]
    (by decide) (by decide)

/-- One statement of the enclosing block's `body`, as read by
`isDirective`: whether it is an `ExpressionStatement`, whether its
expression is a `Literal`, whether that literal's value is a string, and
whether the expression is parenthesised (the parenthesis test is the
`ast-utils` helper, outside the excerpted sources, carried as an
attribute). -/
structure QStmt where
  isExpressionStatement : Bool
  exprIsLiteral : Bool
  exprValueIsString : Bool
  exprParenthesized : Bool
deriving DecidableEq, Repr

/-- Embeds `isDirective(node)`: an `ExpressionStatement` holding an
unparenthesised string literal. -/
def isDirective (s : QStmt) : Bool :=
  s.isExpressionStatement && s.exprIsLiteral && s.exprValueIsString &&
    !s.exprParenthesized

/-- A string `Literal` node as read by the `Literal` handler of the
`quotes` rule.  `parenthesized` and `parentIsTopLevelExpressionStatement`
carry the `ast-utils` helpers `isParenthesised(sourceCode, node)` and
`isTopLevelExpressionStatement(node.parent)` (both outside the excerpted
sources) as attributes; `enclosingBlockBody` is `node.parent.parent.body`
and `parentIndex` the position of `node.parent` in it; the `...IsSelf`
booleans carry the `===` comparisons between the node and children of
its parent. -/
structure QLiteral where
  valueIsString : Bool
  raw : List Char
  parentType : NType
  parenthesized : Bool
  parentIsTopLevelExpressionStatement : Bool
  enclosingBlockBody : List QStmt
  parentIndex : Nat
  parentKeyIsSelf : Bool := false
  parentComputed : Bool := false
  parentSourceIsSelf : Bool := false
  parentExportedIsSelf : Bool := false
  parentImportedIsSelf : Bool := false
  parentLocalIsSelf : Bool := false
deriving DecidableEq, Repr

/-- The prologue loop of `isExpressionInOrJustAfterDirectivePrologue`:
walk the block's statements; reaching `node.parent` (at `parentIndex`)
returns `true`, a non-directive before it stops with `false`. -/
def prologueScan : List QStmt → Nat → Bool
  | [], _ => false
  | _ :: _, 0 => true
  | s :: rest, k + 1 => isDirective s && prologueScan rest k

/-- Embeds `isExpressionInOrJustAfterDirectivePrologue(node)`. -/
def isExpressionInOrJustAfterDirectivePrologue (node : QLiteral) : Bool :=
  node.parentIsTopLevelExpressionStatement &&
    prologueScan node.enclosingBlockBody node.parentIndex

/-- Embeds `isAllowedAsNonBacktick(node)`. -/
def isAllowedAsNonBacktick (node : QLiteral) : Bool :=
  match node.parentType with
  | .expressionStatement =>
    !node.parenthesized && isExpressionInOrJustAfterDirectivePrologue node
  | .property | .propertyDefinition | .methodDefinition =>
    node.parentKeyIsSelf && !node.parentComputed
  | .importDeclaration | .exportNamedDeclaration => node.parentSourceIsSelf
  | .exportAllDeclaration => node.parentExportedIsSelf || node.parentSourceIsSelf
  | .importSpecifier => node.parentImportedIsSelf
  | .exportSpecifier => node.parentLocalIsSelf || node.parentExportedIsSelf
  | _ => false

/-- Embeds `isJSXLiteral(node)`. -/
def isJSXLiteral (node : QLiteral) : Bool :=
  node.parentType = .jsxAttribute || node.parentType = .jsxElement ||
    node.parentType = .jsxFragment

/-- The `ast-utils` helper `isSurroundedBy(val, character)` (outside the
excerpted sources): first and last character both equal `character`. -/
def isSurroundedBy (val : List Char) (character : Char) : Bool :=
  val.head? = some character && val.getLast? = some character

/-- The rule's per-run configuration: `context.options[0]` (absent means
the `double` settings but a failing `quoteOption === "backtick"` test)
and the parsed second option. -/
structure QuotesConfig where
  quoteOption : Option QuoteOption
  avoidEscape : Bool
  allowTemplateLiterals : Bool
deriving DecidableEq, Repr

/-- Embeds the report decision of the `Literal` handler: a string literal
is reported when it is not valid — valid meaning allowed as non-backtick
under the `backtick` option, a JSX literal, already surrounded by the
target quote, or (with `avoidEscape`) surrounded by the alternate quote
while containing the target quote. -/
def literalReported (cfg : QuotesConfig) (node : QLiteral) : Bool :=
  let settings := QUOTE_SETTINGS (cfg.quoteOption.getD .double)
  if node.valueIsString then
    let isValidBase :=
      (cfg.quoteOption = some .backtick && isAllowedAsNonBacktick node) ||
        isJSXLiteral node || isSurroundedBy node.raw settings.quote
    let isValid :=
      isValidBase ||
        (cfg.avoidEscape && isSurroundedBy node.raw settings.alternateQuote &&
          node.raw.contains settings.quote)
    !isValid
  else false

/-- A `TemplateLiteral` node as read by the `TemplateLiteral` handler.
`parentIsTopLevelExpressionStatement` and `parenthesized` carry the
`ast-utils` helpers as attributes; `text` is `sourceCode.getText(node)`;
the remaining fields feed `isUsingFeatureOfTemplateLiteral`. -/
structure QTemplate where
  parentIsTopLevelExpressionStatement : Bool
  parenthesized : Bool
  text : List Char
  parentIsTaggedAndQuasi : Bool
  expressionsCount : Nat
  firstQuasiRaw : Option (List Char)
deriving DecidableEq, Repr

/-- The linebreak characters of `ast-utils.LINEBREAKS`. -/
def isLinebreakChar (c : Char) : Bool :=
  c = '\r' || c = '\n' || c.toNat = 8232 || c.toNat = 8233

/-- The test of `UNESCAPED_LINEBREAK_PATTERN`
(`(^|[^\x5c])(\x5c\x5c)*[linebreaks]`): some linebreak character is
preceded by an even run of backslashes.  The first argument tracks
whether the run of backslashes read so far has odd length. -/
def unescapedLinebreakAux : Bool → List Char → Bool
  | _, [] => false
  | oddRun, c :: rest =>
    if isLinebreakChar c then (!oddRun) || unescapedLinebreakAux false rest
    else if c = backslashChar then unescapedLinebreakAux (!oddRun) rest
    else unescapedLinebreakAux false rest

/-- `UNESCAPED_LINEBREAK_PATTERN.test(s)`. -/
def unescapedLinebreakTest (s : List Char) : Bool :=
  unescapedLinebreakAux false s

/-- Embeds `isUsingFeatureOfTemplateLiteral(node)`: a tag, an
interpolation, or an unescaped linebreak in the first quasi. -/
def isUsingFeatureOfTemplateLiteral (node : QTemplate) : Bool :=
  node.parentIsTaggedAndQuasi ||
    decide (0 < node.expressionsCount) ||
    (match node.firstQuasiRaw with
     | some raw => unescapedLinebreakTest raw
     | none => false)

/-- Embeds the report decision of the `TemplateLiteral` handler. -/
def templateReported (cfg : QuotesConfig) (node : QTemplate) : Bool :=
  !(cfg.allowTemplateLiterals || cfg.quoteOption = some .backtick ||
      isUsingFeatureOfTemplateLiteral node)

/-- Embeds the fixer of the `TemplateLiteral` report: `null` (no edit)
for an unparenthesised top-level expression statement — fixing it might
turn it into a directive — otherwise the conversion of the node's text. -/
def templateLiteralFix (cfg : QuotesConfig) (node : QTemplate) : Option (List Char) :=
  if node.parentIsTopLevelExpressionStatement && !node.parenthesized then none
  else
    some (convert (QUOTE_SETTINGS (cfg.quoteOption.getD .double)) node.text)

/-- Claim C9: the quotes rule never fixes across a directive-prologue
boundary — the `TemplateLiteral` fixer produces no edit whenever the
reported template literal is an unparenthesised top-level expression
statement, and with the `backtick` option a string literal that is part
of or immediately follows a directive prologue (an unparenthesised
expression-statement string at prologue position) is never reported. -/
theorem directive_prologue_safety (cfgT cfgL : QuotesConfig)
    (t : QTemplate) (lit : QLiteral)
    (hrep : templateReported cfgT t = true)
    (htop : t.parentIsTopLevelExpressionStatement = true)
    (hpar : t.parenthesized = false)
    (hbacktick : cfgL.quoteOption = some .backtick)
    (hl1 : lit.parentType = .expressionStatement)
    (hl2 : lit.parenthesized = false)
    (hl3 : isExpressionInOrJustAfterDirectivePrologue lit = true) :
    templateLiteralFix cfgT t = none ∧ literalReported cfgL lit = false := by
  constructor
  · rw [templateLiteralFix]
    simp [htop, hpar]
  · have hallowed : isAllowedAsNonBacktick lit = true := by
      rw [isAllowedAsNonBacktick, hl1]
      simp [hl2, hl3]
    rw [literalReported]
    simp [hbacktick, hallowed]

/-- Witness for claim C9: a reported top-level unparenthesised template
literal gets no fix, and under `backtick` a double-quoted `"use strict"`
directive at the start of a program body is not reported. -/
theorem directive_prologue_safety_witness :
    templateLiteralFix ⟨some .single, false, false⟩
        ⟨true, false, [backtickChar, 'x', backtickChar], false, 0, some ['x']⟩ = none ∧
    literalReported ⟨some .backtick, false, false⟩
        { valueIsString := true
          raw := [doubleQuoteChar, 'u', doubleQuoteChar]
          parentType := .expressionStatement
          parenthesized := false
          parentIsTopLevelExpressionStatement := true
          enclosingBlockBody := [⟨true, true, true, false⟩]
          parentIndex := 0 } = false :=
  directive_prologue_safety ⟨some .single, false, false⟩ ⟨some .backtick, false, false⟩
    ⟨true, false, [backtickChar, 'x', backtickChar], false, 0, some ['x']⟩
    { valueIsString := true
      raw := [doubleQuoteChar, 'u', doubleQuoteChar]
      parentType := .expressionStatement
      parenthesized := false
      parentIsTopLevelExpressionStatement := true
      enclosingBlockBody := [⟨true, true, true, false⟩]
      parentIndex := 0 }
    (by decide) (by decide) (by decide) (by decide) (by decide) (by decide) (by decide)

end Quotes
